import Mathlib

/-!
Verification of the signed-in-user resolution service
(`pkg/services/user/userimpl/user.go`).

The Go service methods `GetSignedInUserWithCacheCtx`, `GetSignedInUser`,
`newSignedInUserCacheKey` and `SetUsingOrg` are embedded as pure Lean
functions.  External collaborators (the SQL-backed user store, the team
service and the org service) are modelled as an explicit environment of
function parameters, and every outgoing call is recorded in an event
trace so that call counts and store side effects become observable.
The process-local cache (`localcache.CacheService`) is modelled from the
spec as an association list from string keys to values with a TTL.
-/

namespace UserImpl

/-- Error values.  Go errors are interface values; for this development an
error is identified by its message string (the only error constructed by
the code under study is `fmt.Errorf("user does not belong to org")`, and
all other errors are passed through from collaborators unchanged). -/
abbrev Err := String

/-- Go `map[string][]string`: permission action name to list of scopes. -/
abbrev ActionScopes := List (String × List String)

/-- Go `map[int64]map[string][]string`: organization ID to action/scope map. -/
abbrev Permissions := List (Int × ActionScopes)

/-- Modelled from the spec: the `user.SignedInUser` projection (its Go
struct declaration is outside this fragment).  Per the spec's data model it
carries an organization ID, a user ID, identity fields (collapsed here into
one `identity` string), the permissions mapping keyed by organization ID,
and the ordered list of team IDs. -/
structure SignedInUser where
  userID : Int
  orgID : Int
  identity : String
  permissions : Permissions
  teams : List Int
  deriving DecidableEq

/-- Modelled from the spec: the query type for signed-in-user resolution;
only the `OrgID` and `UserID` fields are read by the code under study. -/
structure GetSignedInUserQuery where
  orgID : Int
  userID : Int
  deriving DecidableEq

/-- Modelled from the spec: a team record; only its `Id` is read by the
code under study (`t.Id` in the projection loop). -/
structure Team where
  id : Int
  name : String
  deriving DecidableEq

/-- Go `models.GetTeamsByUserQuery`: the query passed to
`teamService.GetTeamsByUser`, carrying the org ID, the user ID and the
signed-in-user value used to authorize the lookup. -/
structure GetTeamsByUserQuery where
  orgId : Int
  userId : Int
  signedInUser : SignedInUser
  deriving DecidableEq

/-- Modelled from the spec: one entry of the org list returned by
`orgService.GetUserOrgList`; only its `OrgID` is read by `SetUsingOrg`. -/
structure UserOrgDTO where
  orgID : Int
  name : String
  deriving DecidableEq

/-- Go `user.SetUsingOrgCommand`: the user and the org to switch to. -/
structure SetUsingOrgCommand where
  userID : Int
  orgID : Int
  deriving DecidableEq

/-- Go constant `ac.ActionTeamsRead` (modelled from the spec: the
"read all teams" permission action). -/
def actionTeamsRead : String := "teams:read"

/-- Go constant `ac.ScopeTeamsAll` (modelled from the spec: the single
scope covering all teams). -/
def scopeTeamsAll : String := "teams:*"

/-- Observable events: every call the service makes to a collaborator,
and every cache write.  Used to state call-count and side-effect claims. -/
inductive Event where
  | storeGetSignedInUser (q : GetSignedInUserQuery)
  | teamGetTeamsByUser (q : GetTeamsByUserQuery)
  | callGetSignedInUser (q : GetSignedInUserQuery)
  | cacheWrite (key : String) (value : SignedInUser) (ttl : Int)
  | orgGetUserOrgList (userID : Int)
  | storeUpdateUser (userID : Int) (orgID : Int)
  deriving DecidableEq

/-- Whether an event is an invocation of `GetSignedInUser`. -/
def Event.isCallGetSignedInUser : Event → Bool
  | Event.callGetSignedInUser _ => true
  | _ => false

/-- Whether an event is a cache write. -/
def Event.isCacheWrite : Event → Bool
  | Event.cacheWrite _ _ _ => true
  | _ => false

/-- Whether an event is a call to `store.GetSignedInUser`. -/
def Event.isStoreGetSignedInUser : Event → Bool
  | Event.storeGetSignedInUser _ => true
  | _ => false

/-- Whether an event is a call to `teamService.GetTeamsByUser`. -/
def Event.isTeamGetTeamsByUser : Event → Bool
  | Event.teamGetTeamsByUser _ => true
  | _ => false

/-- Whether an event is a call to `store.UpdateUser`. -/
def Event.isStoreUpdateUser : Event → Bool
  | Event.storeUpdateUser _ _ => true
  | _ => false

/-- The environment of collaborators: the user store, the team service and
the org service, each an arbitrary function returning a result or an
error. -/
structure Env where
  storeGetSignedInUser : GetSignedInUserQuery → Except Err SignedInUser
  teamGetTeamsByUser : GetTeamsByUserQuery → Except Err (List Team)
  orgGetUserOrgList : Int → Except Err (List UserOrgDTO)
  storeUpdateUser : Int → Int → Except Err Unit

/-- Go local `tempUser` in `GetSignedInUser`: a signed-in-user value whose
only populated fields are `OrgID` and a one-entry `Permissions` map
granting `ActionTeamsRead` on `ScopeTeamsAll` for the resolved org; all
other fields keep their Go zero values. -/
def tempUser (signedInUser : SignedInUser) : SignedInUser :=
  { userID := 0
    orgID := signedInUser.orgID
    identity := ""
    permissions := [(signedInUser.orgID, [(actionTeamsRead, [scopeTeamsAll])])]
    teams := [] }

/-- Go local `getTeamsByUserQuery` in `GetSignedInUser`: the team lookup
query for the resolved user, authorized by `tempUser`. -/
def getTeamsByUserQuery (signedInUser : SignedInUser) : GetTeamsByUserQuery :=
  { orgId := signedInUser.orgID
    userId := signedInUser.userID
    signedInUser := tempUser signedInUser }

/-- Embedding of `Service.GetSignedInUser`: fetch the base projection from
the store, abort on error; query the team service with the `tempUser`
authorization, abort on error; otherwise assign `Teams` to the ordered
list of the returned teams' IDs and return the result.  The second
component is the trace of collaborator calls. -/
def GetSignedInUser (env : Env) (query : GetSignedInUserQuery) :
    Except Err SignedInUser × List Event :=
  match env.storeGetSignedInUser query with
  | Except.error e => (Except.error e, [Event.storeGetSignedInUser query])
  | Except.ok signedInUser =>
      match env.teamGetTeamsByUser (getTeamsByUserQuery signedInUser) with
      | Except.error e =>
          (Except.error e,
            [Event.storeGetSignedInUser query,
              Event.teamGetTeamsByUser (getTeamsByUserQuery signedInUser)])
      | Except.ok result =>
          (Except.ok { signedInUser with teams := result.map Team.id },
            [Event.storeGetSignedInUser query,
              Event.teamGetTeamsByUser (getTeamsByUserQuery signedInUser)])

/-- Go `time.Second` as a count of nanoseconds (`time.Duration`). -/
def timeSecond : Int := 1000000000

/-- Modelled from the spec: one cache entry, a snapshot value together
with the TTL it was stored with. -/
structure CacheEntry where
  value : SignedInUser
  ttl : Int
  deriving DecidableEq

/-- Modelled from the spec: the process-local cache, an association list
from string keys to entries (`localcache.CacheService` is outside this
fragment; the spec gives its contract as `Get(key) → (value, found)` and
`Set(key, value, ttl)`). -/
abbrev Cache := List (String × CacheEntry)

/-- Cache lookup: the entry stored under `key`, if present. -/
def cacheGet (cache : Cache) (key : String) : Option CacheEntry :=
  (cache.find? (fun p => p.1 == key)).map Prod.snd

/-- Cache write: store `value` under `key` with time-to-live `ttl`,
replacing any previous entry for `key`. -/
def cacheSet (cache : Cache) (key : String) (value : SignedInUser) (ttl : Int) : Cache :=
  (key, { value := value, ttl := ttl }) :: cache.filter (fun p => p.1 != key)

/-- Decimal digit characters of a natural number, most significant first,
with bounded recursion depth `fuel` (sufficient whenever `n ≤ fuel`). -/
def natDigitsAux : Nat → Nat → List Char
  | _, 0 => []
  | 0, _ + 1 => []
  | fuel + 1, n + 1 =>
      natDigitsAux fuel ((n + 1) / 10) ++ [Nat.digitChar ((n + 1) % 10)]

/-- Decimal rendering of a natural number, as a character list. -/
def natReprL (n : Nat) : List Char :=
  if n = 0 then ['0'] else natDigitsAux n n

/-- Rendering of the Go `fmt` verb `%d` on an `int64` value: an optional
minus sign followed by the decimal digits. -/
def intRepr : Int → String
  | Int.ofNat n => String.mk (natReprL n)
  | Int.negSucc n => String.mk ('-' :: natReprL (n + 1))

/-- Embedding of `newSignedInUserCacheKey`:
`fmt.Sprintf("signed-in-user-%d-%d", userID, orgID)`. -/
def newSignedInUserCacheKey (orgID userID : Int) : String :=
  "signed-in-user-" ++ intRepr userID ++ "-" ++ intRepr orgID

/-- Embedding of `Service.GetSignedInUserWithCacheCtx`: look the query's
key up in the cache and return the cached value on a hit; on a miss call
`GetSignedInUser`, propagate its error, and on success store the result
under the key recomputed from the result's org ID with a five-second TTL
and return it.  The components are the returned value or error, the cache
after the call, and the trace of events. -/
def GetSignedInUserWithCacheCtx (env : Env) (cache : Cache) (query : GetSignedInUserQuery) :
    Except Err SignedInUser × Cache × List Event :=
  let cacheKey := newSignedInUserCacheKey query.orgID query.userID
  match cacheGet cache cacheKey with
  | some entry => (Except.ok entry.value, cache, [])
  | none =>
      match GetSignedInUser env query with
      | (Except.error e, events) =>
          (Except.error e, cache, Event.callGetSignedInUser query :: events)
      | (Except.ok result, events) =>
          let cacheKey2 := newSignedInUserCacheKey result.orgID query.userID
          (Except.ok result,
            cacheSet cache cacheKey2 result (timeSecond * 5),
            Event.callGetSignedInUser query ::
              events ++ [Event.cacheWrite cacheKey2 result (timeSecond * 5)])

/-- Embedding of `Service.SetUsingOrg`: fetch the user's org list, abort
on error; if no entry of the list has the requested org ID, fail with
"user does not belong to org" without touching the store; otherwise call
`store.UpdateUser` with exactly the command's user ID and org ID. -/
def SetUsingOrg (env : Env) (cmd : SetUsingOrgCommand) : Except Err Unit × List Event :=
  match env.orgGetUserOrgList cmd.userID with
  | Except.error e => (Except.error e, [Event.orgGetUserOrgList cmd.userID])
  | Except.ok orgsForUser =>
      let valid := orgsForUser.any (fun other => other.orgID == cmd.orgID)
      if valid then
        (env.storeUpdateUser cmd.userID cmd.orgID,
          [Event.orgGetUserOrgList cmd.userID,
            Event.storeUpdateUser cmd.userID cmd.orgID])
      else
        (Except.error "user does not belong to org",
          [Event.orgGetUserOrgList cmd.userID])

end UserImpl

namespace UserImpl

/-- Decidable equality for `Except` results, used to evaluate the model on
concrete inputs. -/
instance exceptDecEq {e a : Type} [DecidableEq e] [DecidableEq a] : DecidableEq (Except e a)
  | Except.error x, Except.error y =>
      if h : x = y then isTrue (by rw [h]) else isFalse (fun hc => h (by cases hc; rfl))
  | Except.error _, Except.ok _ => isFalse (fun hc => Except.noConfusion hc)
  | Except.ok _, Except.error _ => isFalse (fun hc => Except.noConfusion hc)
  | Except.ok x, Except.ok y =>
      if h : x = y then isTrue (by rw [h]) else isFalse (fun hc => h (by cases hc; rfl))

namespace RefModel

/-- Go run-time representation of the `user.SignedInUser` struct: scalar
fields are held directly, while the `Permissions` map and the `Teams`
slice are references into a heap.  Go maps and slices are reference
types, so copying the struct copies the references, not the payloads. -/
structure GoSignedInUser where
  userID : Int
  orgID : Int
  identity : String
  permissionsRef : Nat
  teamsRef : Nat
  deriving DecidableEq

/-- The heap of map and slice payloads referenced by struct values. -/
structure Heap where
  permsHeap : List (Nat × Permissions)
  teamsHeap : List (Nat × List Int)

/-- Read the team slice behind reference `r`. -/
def readTeams (h : Heap) (r : Nat) : Option (List Int) :=
  (h.teamsHeap.find? (fun p => p.1 == r)).map Prod.snd

/-- Go in-place slice update `teams[i] = v` behind reference `r`: the
payload is mutated, so every struct holding the same reference observes
the new contents. -/
def writeTeamsAt (h : Heap) (r : Nat) (i : Nat) (v : Int) : Heap :=
  { h with teamsHeap := h.teamsHeap.map (fun p => if p.1 = r then (p.1, p.2.set i v) else p) }

/-- Go struct copy, as performed by `*result` when the value is stored in
the cache and by the interface unboxing `cached.(user.SignedInUser)` on a
hit: scalar fields are copied by value and reference fields are copied as
references; no new payload is allocated. -/
def structCopy (u : GoSignedInUser) : GoSignedInUser := u

/-- The cache at the reference level: key to stored struct value and TTL. -/
abbrev RefCache := List (String × GoSignedInUser × Int)

/-- Cache lookup at the reference level. -/
def refCacheGet (cache : RefCache) (key : String) : Option GoSignedInUser :=
  (cache.find? (fun p => p.1 == key)).map (fun p => p.2.1)

/-- Cache write at the reference level. -/
def refCacheSet (cache : RefCache) (key : String) (value : GoSignedInUser) (ttl : Int) :
    RefCache :=
  (key, value, ttl) :: cache.filter (fun p => p.1 != key)

/-- Embedding of `Service.GetSignedInUserWithCacheCtx` at the reference
level, with the resolver abstracted: on a hit a struct copy of the cached
value is returned; on a successful miss a struct copy of the result is
stored and the result itself is returned.  The heap is not touched by
either path: no payload is deep-copied. -/
def GetSignedInUserWithCacheCtxRef
    (resolve : GetSignedInUserQuery → Except Err GoSignedInUser)
    (cache : RefCache) (query : GetSignedInUserQuery) :
    Except Err GoSignedInUser × RefCache :=
  match refCacheGet cache (newSignedInUserCacheKey query.orgID query.userID) with
  | some cachedUser => (Except.ok (structCopy cachedUser), cache)
  | none =>
      match resolve query with
      | Except.error e => (Except.error e, cache)
      | Except.ok result =>
          (Except.ok result,
            refCacheSet cache (newSignedInUserCacheKey result.orgID query.userID)
              (structCopy result) (timeSecond * 5))

end RefModel

/-- Concrete resolver result for the cache-mutability scenario: user 3 in
org 2, whose permissions map and teams slice live at heap references 0
and 1. -/
def c7Result : RefModel.GoSignedInUser :=
  { userID := 3, orgID := 2, identity := "alice", permissionsRef := 0, teamsRef := 1 }

/-- Concrete heap for the cache-mutability scenario: reference 1 holds the
team list `[5, 2, 9]`. -/
def c7Heap : RefModel.Heap :=
  { permsHeap := [(0, [(2, [(actionTeamsRead, [scopeTeamsAll])])])]
    teamsHeap := [(1, [5, 2, 9])] }

/-- Concrete query for the cache-mutability scenario. -/
def c7Query : GetSignedInUserQuery := { orgID := 2, userID := 3 }

/-- Run of the cached resolver on an empty cache in the cache-mutability
scenario. -/
def c7Run : Except Err RefModel.GoSignedInUser × RefModel.RefCache :=
  RefModel.GetSignedInUserWithCacheCtxRef (fun _ => Except.ok c7Result) [] c7Query

/-- The cache key of the cache-mutability scenario. -/
def c7Key : String := newSignedInUserCacheKey 2 3

/-- Concrete store projection used by the witnesses: user 3 in org 2. -/
def wUser : SignedInUser :=
  { userID := 3, orgID := 2, identity := "alice"
    permissions := [(2, [("users:read", ["users:*"])])], teams := [] }

/-- Concrete team list used by the witnesses, with IDs `[5, 2, 9]`. -/
def wTeams : List Team := [{ id := 5, name := "alpha" }, { id := 2, name := "beta" },
  { id := 9, name := "gamma" }]

/-- Concrete query used by the witnesses. -/
def wQuery : GetSignedInUserQuery := { orgID := 2, userID := 3 }

/-- Concrete org list used by the witnesses: the user belongs to orgs 1
and 3. -/
def wOrgs : List UserOrgDTO := [{ orgID := 1, name := "one" }, { orgID := 3, name := "three" }]

/-- Environment whose collaborators all succeed. -/
def wEnv : Env :=
  { storeGetSignedInUser := fun _ => Except.ok wUser
    teamGetTeamsByUser := fun _ => Except.ok wTeams
    orgGetUserOrgList := fun _ => Except.ok wOrgs
    storeUpdateUser := fun _ _ => Except.ok () }

/-- Environment whose collaborators all fail. -/
def wEnvErr : Env :=
  { storeGetSignedInUser := fun _ => Except.error "user not found"
    teamGetTeamsByUser := fun _ => Except.error "team lookup failed"
    orgGetUserOrgList := fun _ => Except.error "org list failed"
    storeUpdateUser := fun _ _ => Except.error "update failed" }

/-- The fully resolved signed-in user of the witness scenario. -/
def wResolved : SignedInUser := { wUser with teams := wTeams.map Team.id }

/-- A cache entry holding the resolved witness user. -/
def wCacheEntry : CacheEntry := { value := wResolved, ttl := timeSecond * 5 }

/-- A cache that already holds the witness user under its key. -/
def wCache : Cache := [(newSignedInUserCacheKey 2 3, wCacheEntry)]

/-- The collaborator calls made on the witness scenario's miss path. -/
def wEvents : List Event :=
  [Event.storeGetSignedInUser wQuery, Event.teamGetTeamsByUser (getTeamsByUserQuery wUser)]

/-- Command switching witness user 3 to org 7, to which it does not
belong. -/
def wCmd : SetUsingOrgCommand := { userID := 3, orgID := 7 }

end UserImpl

namespace UserImpl

/-- Auxiliary: with sufficient fuel, `natDigitsAux` computes the digit
characters of `Nat.digits` in most-significant-first order. -/
theorem natDigitsAux_eq_digits :
    ∀ fuel n : Nat, n ≤ fuel →
      natDigitsAux fuel n = ((Nat.digits 10 n).map Nat.digitChar).reverse := by
  intro fuel
  induction fuel with
  | zero =>
      intro n hn
      interval_cases n
      simp [natDigitsAux]
  | succ fuel ih =>
      intro n hn
      match n with
      | 0 => simp [natDigitsAux]
      | m + 1 =>
          have hdiv : (m + 1) / 10 < m + 1 := Nat.div_lt_self (Nat.succ_pos m) (by norm_num)
          rw [natDigitsAux, Nat.digits_eq_cons_digits_div (by norm_num) (Nat.succ_ne_zero m)]
          rw [ih ((m + 1) / 10) (by omega)]
          simp

/-- Characterization of the decimal rendering via `Nat.digits`. -/
theorem natReprL_eq (n : Nat) :
    natReprL n = if n = 0 then ['0'] else ((Nat.digits 10 n).map Nat.digitChar).reverse := by
  by_cases h : n = 0
  · simp [natReprL, h]
  · simp [natReprL, h, natDigitsAux_eq_digits n n le_rfl]

/-- A decimal rendering is never empty. -/
theorem natReprL_ne_nil (n : Nat) : natReprL n ≠ [] := by
  rw [natReprL_eq]
  by_cases h : n = 0
  · simp [h]
  · simp [h, Nat.digits_ne_nil_iff_ne_zero.mpr h]

/-- A decimal rendering of a natural number contains no minus sign. -/
theorem minus_not_mem_natReprL (n : Nat) : '-' ∉ natReprL n := by
  rw [natReprL_eq]
  by_cases h : n = 0
  · simp [h]
  · simp only [h, if_false, List.mem_reverse, List.mem_map]
    rintro ⟨d, hd, hchar⟩
    have hlt : d < 10 := Nat.digits_lt_base (by norm_num) hd
    have hne : ∀ x, x < 10 → Nat.digitChar x ≠ '-' := by decide
    exact hne d hlt hchar

/-- Mapping `Nat.digitChar` over lists of digits below ten is injective. -/
theorem map_digitChar_inj :
    ∀ l1 l2 : List Nat, (∀ d ∈ l1, d < 10) → (∀ d ∈ l2, d < 10) →
      l1.map Nat.digitChar = l2.map Nat.digitChar → l1 = l2 := by
  intro l1
  induction l1 with
  | nil => intro l2 _ _ h; cases l2 <;> simp_all
  | cons a t ih =>
      intro l2 h1 h2 h
      cases l2 with
      | nil => simp_all
      | cons b t2 =>
          simp only [List.map_cons, List.cons.injEq] at h
          have ha : a < 10 := h1 a (List.mem_cons_self a t)
          have hb : b < 10 := h2 b (List.mem_cons_self b t2)
          have hinj : ∀ x, x < 10 → ∀ y, y < 10 → Nat.digitChar x = Nat.digitChar y → x = y := by
            decide
          have hab : a = b := hinj a ha b hb h.1
          have ht : t = t2 :=
            ih t2 (fun d hd => h1 d (List.mem_cons_of_mem a hd))
              (fun d hd => h2 d (List.mem_cons_of_mem b hd)) h.2
          rw [hab, ht]

/-- Decimal renderings of distinct natural numbers are distinct. -/
theorem natReprL_injective : ∀ m n : Nat, natReprL m = natReprL n → m = n := by
  intro m n h
  rw [natReprL_eq, natReprL_eq] at h
  by_cases hm : m = 0 <;> by_cases hn : n = 0
  · rw [hm, hn]
  · exfalso
    simp only [hm, if_true, hn, if_false] at h
    have h2 : (Nat.digits 10 n).map Nat.digitChar = ['0'] := by
      have := congrArg List.reverse h
      simpa using this.symm
    cases hd : Nat.digits 10 n with
    | nil => rw [hd] at h2; simp at h2
    | cons d t =>
        rw [hd] at h2
        simp only [List.map_cons, List.cons.injEq, List.map_eq_nil_iff] at h2
        have hdlt : d < 10 := Nat.digits_lt_base (by norm_num) (hd ▸ List.mem_cons_self d t)
        have hd0 : d = 0 := by
          have hz : ∀ x, x < 10 → Nat.digitChar x = '0' → x = 0 := by decide
          exact hz d hdlt h2.1
        have hofd := Nat.ofDigits_digits 10 n
        rw [hd, h2.2, hd0] at hofd
        simp [Nat.ofDigits] at hofd
        exact hn hofd.symm
  · exfalso
    simp only [hm, if_false, hn, if_true] at h
    have h2 : (Nat.digits 10 m).map Nat.digitChar = ['0'] := by
      have := congrArg List.reverse h
      simpa using this
    cases hd : Nat.digits 10 m with
    | nil => rw [hd] at h2; simp at h2
    | cons d t =>
        rw [hd] at h2
        simp only [List.map_cons, List.cons.injEq, List.map_eq_nil_iff] at h2
        have hdlt : d < 10 := Nat.digits_lt_base (by norm_num) (hd ▸ List.mem_cons_self d t)
        have hd0 : d = 0 := by
          have hz : ∀ x, x < 10 → Nat.digitChar x = '0' → x = 0 := by decide
          exact hz d hdlt h2.1
        have hofd := Nat.ofDigits_digits 10 m
        rw [hd, h2.2, hd0] at hofd
        simp [Nat.ofDigits] at hofd
        exact hm hofd.symm
  · simp only [hm, if_false, hn, if_false] at h
    have h2 := List.reverse_injective h
    have h3 := map_digitChar_inj _ _
      (fun d hd => Nat.digits_lt_base (by norm_num) hd)
      (fun d hd => Nat.digits_lt_base (by norm_num) hd) h2
    exact Nat.digits.injective 10 h3

/-- Unique decomposition around a separator: if neither prefix contains a
minus sign, a list splits in at most one way as prefix, minus sign,
remainder. -/
theorem append_cons_minus_eq :
    ∀ a1 a2 b1 b2 : List Char, '-' ∉ a1 → '-' ∉ a2 →
      a1 ++ '-' :: b1 = a2 ++ '-' :: b2 → a1 = a2 ∧ b1 = b2 := by
  intro a1
  induction a1 with
  | nil =>
      intro a2 b1 b2 _ h2 h
      cases a2 with
      | nil => simpa using h
      | cons y t =>
          exfalso
          simp only [List.nil_append, List.cons_append, List.cons.injEq] at h
          exact h2 (h.1 ▸ List.mem_cons_self y t)
  | cons x t ih =>
      intro a2 b1 b2 h1 h2 h
      cases a2 with
      | nil =>
          exfalso
          simp only [List.nil_append, List.cons_append, List.cons.injEq] at h
          exact h1 (h.1.symm ▸ List.mem_cons_self x t)
      | cons y t2 =>
          simp only [List.cons_append, List.cons.injEq] at h
          have := ih t2 b1 b2 (fun hm => h1 (List.mem_cons_of_mem x hm))
            (fun hm => h2 (List.mem_cons_of_mem y hm)) h.2
          exact ⟨by rw [h.1, this.1], this.2⟩

/-- Character data of the rendering of a nonnegative value. -/
theorem intRepr_data_ofNat (n : Nat) : (intRepr (Int.ofNat n)).data = natReprL n := rfl

/-- Character data of the rendering of a negative value. -/
theorem intRepr_data_negSucc (n : Nat) :
    (intRepr (Int.negSucc n)).data = '-' :: natReprL (n + 1) := rfl

/-- Decimal renderings of distinct integers are distinct. -/
theorem intRepr_injective : ∀ i j : Int, intRepr i = intRepr j → i = j := by
  intro i j h
  have hdata : (intRepr i).data = (intRepr j).data := congrArg String.data h
  cases i with
  | ofNat m =>
      cases j with
      | ofNat n =>
          rw [intRepr_data_ofNat, intRepr_data_ofNat] at hdata
          exact congrArg Int.ofNat (natReprL_injective m n hdata)
      | negSucc n =>
          exfalso
          rw [intRepr_data_ofNat, intRepr_data_negSucc] at hdata
          exact minus_not_mem_natReprL m (hdata ▸ List.mem_cons_self '-' (natReprL (n + 1)))
  | negSucc m =>
      cases j with
      | ofNat n =>
          exfalso
          rw [intRepr_data_negSucc, intRepr_data_ofNat] at hdata
          exact minus_not_mem_natReprL n (hdata ▸ List.mem_cons_self '-' (natReprL (m + 1)))
      | negSucc n =>
          rw [intRepr_data_negSucc, intRepr_data_negSucc] at hdata
          simp only [List.cons.injEq, true_and] at hdata
          have hmn := natReprL_injective (m + 1) (n + 1) hdata
          have : m = n := by omega
          rw [this]

/-- Character data of a cache key, decomposed at the separator in front of
the org ID. -/
theorem newSignedInUserCacheKey_data (orgID userID : Int) :
    (newSignedInUserCacheKey orgID userID).data =
      "signed-in-user-".data ++ ((intRepr userID).data ++ ('-' :: (intRepr orgID).data)) := by
  simp [newSignedInUserCacheKey, String.data_append]

/-- An integer rendering followed by a minus sign and a remainder
determines the integer and the remainder. -/
theorem intRepr_cons_minus_inj :
    ∀ i j : Int, ∀ b1 b2 : List Char,
      (intRepr i).data ++ '-' :: b1 = (intRepr j).data ++ '-' :: b2 → i = j ∧ b1 = b2 := by
  intro i j b1 b2 h
  cases i with
  | ofNat m =>
      cases j with
      | ofNat n =>
          rw [intRepr_data_ofNat, intRepr_data_ofNat] at h
          have hsplit := append_cons_minus_eq _ _ _ _
            (minus_not_mem_natReprL m) (minus_not_mem_natReprL n) h
          exact ⟨congrArg Int.ofNat (natReprL_injective m n hsplit.1), hsplit.2⟩
      | negSucc n =>
          exfalso
          rw [intRepr_data_ofNat, intRepr_data_negSucc] at h
          cases hm : natReprL m with
          | nil => exact natReprL_ne_nil m hm
          | cons c t =>
              rw [hm] at h
              simp only [List.cons_append, List.cons.injEq] at h
              have hmem : '-' ∈ natReprL m := by
                rw [hm, ← h.1]; exact List.mem_cons_self c t
              exact minus_not_mem_natReprL m hmem
  | negSucc m =>
      cases j with
      | ofNat n =>
          exfalso
          rw [intRepr_data_negSucc, intRepr_data_ofNat] at h
          cases hn : natReprL n with
          | nil => exact natReprL_ne_nil n hn
          | cons c t =>
              rw [hn] at h
              simp only [List.cons_append, List.cons.injEq] at h
              have hmem : '-' ∈ natReprL n := by
                rw [hn, h.1]; exact List.mem_cons_self c t
              exact minus_not_mem_natReprL n hmem
      | negSucc n =>
          rw [intRepr_data_negSucc, intRepr_data_negSucc] at h
          simp only [List.cons_append, List.cons.injEq, true_and] at h
          have hsplit := append_cons_minus_eq _ _ _ _
            (minus_not_mem_natReprL (m + 1)) (minus_not_mem_natReprL (n + 1)) h
          have hmn := natReprL_injective _ _ hsplit.1
          have : m = n := by omega
          exact ⟨by rw [this], hsplit.2⟩

/-- Auxiliary: the trace of `GetSignedInUser` only records collaborator
calls, never a resolver invocation or a cache write. -/
theorem GetSignedInUser_events_collaborators_only (env : Env) (query : GetSignedInUserQuery) :
    (GetSignedInUser env query).2.countP Event.isCallGetSignedInUser = 0 ∧
    (GetSignedInUser env query).2.countP Event.isCacheWrite = 0 := by
  unfold GetSignedInUser
  cases hstore : env.storeGetSignedInUser query with
  | error e => simp [Event.isCallGetSignedInUser, Event.isCacheWrite]
  | ok su =>
      cases hteam : env.teamGetTeamsByUser (getTeamsByUserQuery su) with
      | error e => simp [hteam, Event.isCallGetSignedInUser, Event.isCacheWrite]
      | ok ts => simp [hteam, Event.isCallGetSignedInUser, Event.isCacheWrite]

end UserImpl

namespace UserImpl

/-- C1: if the cache contains an entry under the key derived from
(userID, orgID), `GetSignedInUserWithCacheCtx` returns that cached
value with no error, leaves the cache unchanged, and makes no call to
`GetSignedInUser`, the user store or the team lookup (the event trace is
empty). -/
theorem GetSignedInUserWithCacheCtx_cache_hit (env : Env) (cache : Cache)
    (query : GetSignedInUserQuery) (entry : CacheEntry)
    (hhit : cacheGet cache (newSignedInUserCacheKey query.orgID query.userID) = some entry) :
    GetSignedInUserWithCacheCtx env cache query = (Except.ok entry.value, cache, []) := by
  simp only [GetSignedInUserWithCacheCtx, hhit]

/-- Witness for C1 at a concrete populated cache. -/
theorem GetSignedInUserWithCacheCtx_cache_hit_witness :
    GetSignedInUserWithCacheCtx wEnv wCache wQuery = (Except.ok wCacheEntry.value, wCache, []) :=
  GetSignedInUserWithCacheCtx_cache_hit wEnv wCache wQuery wCacheEntry (by decide)

/-- C2: on a cache miss with a successful resolution,
`GetSignedInUserWithCacheCtx` performs exactly one `GetSignedInUser` call
and exactly one cache write, stores the result value under the key
recomputed from the result's org ID and the query's user ID with a fixed
TTL of five seconds, and returns the result. -/
theorem GetSignedInUserWithCacheCtx_cache_miss_resolves_once (env : Env) (cache : Cache)
    (query : GetSignedInUserQuery) (result : SignedInUser) (events : List Event)
    (hmiss : cacheGet cache (newSignedInUserCacheKey query.orgID query.userID) = none)
    (hres : GetSignedInUser env query = (Except.ok result, events)) :
    GetSignedInUserWithCacheCtx env cache query =
      (Except.ok result,
        cacheSet cache (newSignedInUserCacheKey result.orgID query.userID) result
          (timeSecond * 5),
        Event.callGetSignedInUser query ::
          events ++ [Event.cacheWrite (newSignedInUserCacheKey result.orgID query.userID)
            result (timeSecond * 5)]) ∧
    (GetSignedInUserWithCacheCtx env cache query).2.2.countP Event.isCallGetSignedInUser = 1 ∧
    (GetSignedInUserWithCacheCtx env cache query).2.2.countP Event.isCacheWrite = 1 ∧
    timeSecond * 5 = 5 * 1000000000 := by
  have hpure := GetSignedInUser_events_collaborators_only env query
  rw [hres] at hpure
  have hrun : GetSignedInUserWithCacheCtx env cache query =
      (Except.ok result,
        cacheSet cache (newSignedInUserCacheKey result.orgID query.userID) result
          (timeSecond * 5),
        Event.callGetSignedInUser query ::
          events ++ [Event.cacheWrite (newSignedInUserCacheKey result.orgID query.userID)
            result (timeSecond * 5)]) := by
    simp only [GetSignedInUserWithCacheCtx, hmiss, hres]
  refine ⟨hrun, ?_, ?_, by decide⟩
  · rw [hrun]
    simp [List.countP_cons, List.countP_append, Event.isCallGetSignedInUser,
      Event.isCacheWrite, hpure.1]
  · rw [hrun]
    simp [List.countP_cons, List.countP_append, Event.isCallGetSignedInUser,
      Event.isCacheWrite, hpure.2]

/-- Witness for C2 at a concrete empty cache. -/
theorem GetSignedInUserWithCacheCtx_cache_miss_resolves_once_witness :
    GetSignedInUserWithCacheCtx wEnv [] wQuery =
      (Except.ok wResolved,
        cacheSet [] (newSignedInUserCacheKey wResolved.orgID wQuery.userID) wResolved
          (timeSecond * 5),
        Event.callGetSignedInUser wQuery ::
          wEvents ++ [Event.cacheWrite (newSignedInUserCacheKey wResolved.orgID wQuery.userID)
            wResolved (timeSecond * 5)]) ∧
    (GetSignedInUserWithCacheCtx wEnv [] wQuery).2.2.countP Event.isCallGetSignedInUser = 1 ∧
    (GetSignedInUserWithCacheCtx wEnv [] wQuery).2.2.countP Event.isCacheWrite = 1 ∧
    timeSecond * 5 = 5 * 1000000000 :=
  GetSignedInUserWithCacheCtx_cache_miss_resolves_once wEnv [] wQuery wResolved wEvents
    (by decide) (by decide)

/-- C3: `GetSignedInUser` sets the result's team list to the IDs of the
teams returned by the team lookup, same length, order preserved
element by element. -/
theorem GetSignedInUser_teams_order_preserved (env : Env) (query : GetSignedInUserQuery)
    (su : SignedInUser) (ts : List Team)
    (hstore : env.storeGetSignedInUser query = Except.ok su)
    (hteams : env.teamGetTeamsByUser (getTeamsByUserQuery su) = Except.ok ts) :
    (GetSignedInUser env query).1 = Except.ok { su with teams := ts.map Team.id } ∧
    (ts.map Team.id).length = ts.length ∧
    ∀ i : Nat, (ts.map Team.id).get? i = (ts.get? i).map Team.id := by
  refine ⟨?_, by simp, fun i => by simp⟩
  simp only [GetSignedInUser, hstore, hteams]

/-- Witness for C3: teams with IDs `[5, 2, 9]` produce `Teams = [5, 2, 9]`
in that exact order. -/
theorem GetSignedInUser_teams_order_preserved_witness :
    ((GetSignedInUser wEnv wQuery).1 = Except.ok { wUser with teams := wTeams.map Team.id } ∧
      (wTeams.map Team.id).length = wTeams.length ∧
      ∀ i : Nat, (wTeams.map Team.id).get? i = (wTeams.get? i).map Team.id) ∧
    wTeams.map Team.id = [5, 2, 9] :=
  ⟨GetSignedInUser_teams_order_preserved wEnv wQuery wUser wTeams rfl rfl, by decide⟩

/-- C4: when the resolution fails on a cache miss,
`GetSignedInUserWithCacheCtx` returns the same error with no user,
performs no cache write, and the cache is unchanged for every key. -/
theorem GetSignedInUserWithCacheCtx_error_propagation (env : Env) (cache : Cache)
    (query : GetSignedInUserQuery) (e : Err) (events : List Event)
    (hmiss : cacheGet cache (newSignedInUserCacheKey query.orgID query.userID) = none)
    (hres : GetSignedInUser env query = (Except.error e, events)) :
    GetSignedInUserWithCacheCtx env cache query =
      (Except.error e, cache, Event.callGetSignedInUser query :: events) ∧
    (GetSignedInUserWithCacheCtx env cache query).2.2.countP Event.isCacheWrite = 0 ∧
    ∀ key, cacheGet (GetSignedInUserWithCacheCtx env cache query).2.1 key =
      cacheGet cache key := by
  have hpure := GetSignedInUser_events_collaborators_only env query
  rw [hres] at hpure
  have hrun : GetSignedInUserWithCacheCtx env cache query =
      (Except.error e, cache, Event.callGetSignedInUser query :: events) := by
    simp only [GetSignedInUserWithCacheCtx, hmiss, hres]
  refine ⟨hrun, ?_, fun key => by rw [hrun]⟩
  rw [hrun]
  simp [List.countP_cons, Event.isCacheWrite, hpure.2]

/-- Witness for C4 with a store that reports the user as not found. -/
theorem GetSignedInUserWithCacheCtx_error_propagation_witness :
    GetSignedInUserWithCacheCtx wEnvErr [] wQuery =
      (Except.error "user not found", ([] : Cache),
        Event.callGetSignedInUser wQuery :: [Event.storeGetSignedInUser wQuery]) ∧
    (GetSignedInUserWithCacheCtx wEnvErr [] wQuery).2.2.countP Event.isCacheWrite = 0 ∧
    (∀ key, cacheGet (GetSignedInUserWithCacheCtx wEnvErr [] wQuery).2.1 key =
      cacheGet ([] : Cache) key) :=
  GetSignedInUserWithCacheCtx_error_propagation wEnvErr [] wQuery "user not found"
    [Event.storeGetSignedInUser wQuery] (by decide) (by decide)

/-- C5: if the store fetch or the team lookup fails, `GetSignedInUser`
returns exactly that error with no user value, and each collaborator is
called at most once (no retry). -/
theorem GetSignedInUser_aborts_on_collaborator_error (env : Env)
    (query : GetSignedInUserQuery) (e : Err)
    (herr : env.storeGetSignedInUser query = Except.error e ∨
      ∃ su, env.storeGetSignedInUser query = Except.ok su ∧
        env.teamGetTeamsByUser (getTeamsByUserQuery su) = Except.error e) :
    (GetSignedInUser env query).1 = Except.error e ∧
    (GetSignedInUser env query).2.countP Event.isStoreGetSignedInUser ≤ 1 ∧
    (GetSignedInUser env query).2.countP Event.isTeamGetTeamsByUser ≤ 1 := by
  rcases herr with hstore | ⟨su, hstore, hteam⟩
  · refine ⟨?_, ?_, ?_⟩ <;>
      simp [GetSignedInUser, hstore, Event.isStoreGetSignedInUser, Event.isTeamGetTeamsByUser]
  · refine ⟨?_, ?_, ?_⟩ <;>
      simp [GetSignedInUser, hstore, hteam, Event.isStoreGetSignedInUser,
        Event.isTeamGetTeamsByUser]

/-- Witness for C5 with a failing store. -/
theorem GetSignedInUser_aborts_on_collaborator_error_witness :
    (GetSignedInUser wEnvErr wQuery).1 = Except.error "user not found" ∧
    (GetSignedInUser wEnvErr wQuery).2.countP Event.isStoreGetSignedInUser ≤ 1 ∧
    (GetSignedInUser wEnvErr wQuery).2.countP Event.isTeamGetTeamsByUser ≤ 1 :=
  GetSignedInUser_aborts_on_collaborator_error wEnvErr wQuery "user not found"
    (Or.inl (by decide))

/-- C6: `SetUsingOrg` fails with "user does not belong to org" and calls
no store update when the requested org is not among the user's orgs, and
calls the store update with exactly the command's user ID and org ID when
it is. -/
theorem SetUsingOrg_org_membership_validation (env : Env) (cmd : SetUsingOrgCommand)
    (orgsForUser : List UserOrgDTO)
    (horgs : env.orgGetUserOrgList cmd.userID = Except.ok orgsForUser) :
    (cmd.orgID ∉ orgsForUser.map UserOrgDTO.orgID →
      SetUsingOrg env cmd =
        (Except.error "user does not belong to org", [Event.orgGetUserOrgList cmd.userID]) ∧
      ∀ u o, Event.storeUpdateUser u o ∉ (SetUsingOrg env cmd).2) ∧
    (cmd.orgID ∈ orgsForUser.map UserOrgDTO.orgID →
      SetUsingOrg env cmd =
        (env.storeUpdateUser cmd.userID cmd.orgID,
          [Event.orgGetUserOrgList cmd.userID,
            Event.storeUpdateUser cmd.userID cmd.orgID])) := by
  have hvalid : (orgsForUser.any (fun other => other.orgID == cmd.orgID) = true) ↔
      cmd.orgID ∈ orgsForUser.map UserOrgDTO.orgID := by
    simp [List.any_eq_true, List.mem_map, beq_iff_eq]
  constructor
  · intro hnot
    have hfalse : orgsForUser.any (fun other => other.orgID == cmd.orgID) = false := by
      rw [← Bool.not_eq_true]
      exact fun hc => hnot (hvalid.mp hc)
    have hrun : SetUsingOrg env cmd =
        (Except.error "user does not belong to org", [Event.orgGetUserOrgList cmd.userID]) := by
      simp [SetUsingOrg, horgs, hfalse]
    refine ⟨hrun, fun u o => ?_⟩
    rw [hrun]
    simp
  · intro hmem
    simp [SetUsingOrg, horgs, hvalid.mpr hmem]

/-- Witness for C6: user 3 belongs to orgs 1 and 3 and requests org 7; the
operation fails with the exact message and performs no store update. -/
theorem SetUsingOrg_org_membership_validation_witness :
    SetUsingOrg wEnv wCmd =
      (Except.error "user does not belong to org", [Event.orgGetUserOrgList wCmd.userID]) ∧
    (∀ u o, Event.storeUpdateUser u o ∉ (SetUsingOrg wEnv wCmd).2) :=
  (SetUsingOrg_org_membership_validation wEnv wCmd wOrgs rfl).1 (by decide)

end UserImpl

namespace UserImpl

/-- C7 counterexample: `GetSignedInUserWithCacheCtx` stores a shallow
struct copy.  At a concrete miss, the value returned to the caller and
the cached entry share the same `Teams` slice reference, so an in-place
write through the returned value changes the team list observed through
the cached entry from `[5, 2, 9]` to `[99, 2, 9]`: the cached value is
not an immutable snapshot. -/
theorem GetSignedInUserWithCacheCtx_cached_mutation_counterexample :
    c7Run.1 = Except.ok c7Result ∧
    (RefModel.refCacheGet c7Run.2 c7Key).map
      (fun cu => RefModel.readTeams c7Heap cu.teamsRef) = some (some [5, 2, 9]) ∧
    (RefModel.refCacheGet c7Run.2 c7Key).map
      (fun cu => RefModel.readTeams
        (RefModel.writeTeamsAt c7Heap c7Result.teamsRef 0 99) cu.teamsRef) =
      some (some [99, 2, 9]) ∧
    some (some ([99, 2, 9] : List Int)) ≠ some (some ([5, 2, 9] : List Int)) := by
  refine ⟨?_, ?_, ?_, ?_⟩ <;> decide

/-- C7 as amended: on a successful miss the cache stores a field-wise copy
of the result struct.  The scalar fields are copied by value, but the
`Permissions` map and `Teams` slice are copied as references shared with
the value returned to the caller, so an in-place mutation of the returned
value's team slice is observed identically through the cached entry. -/
theorem GetSignedInUserWithCacheCtxRef_shallow_snapshot
    (resolve : GetSignedInUserQuery → Except Err RefModel.GoSignedInUser)
    (cache : RefModel.RefCache) (query : GetSignedInUserQuery)
    (result : RefModel.GoSignedInUser)
    (hmiss : RefModel.refCacheGet cache
      (newSignedInUserCacheKey query.orgID query.userID) = none)
    (hres : resolve query = Except.ok result) :
    RefModel.GetSignedInUserWithCacheCtxRef resolve cache query =
      (Except.ok result,
        RefModel.refCacheSet cache (newSignedInUserCacheKey result.orgID query.userID)
          (RefModel.structCopy result) (timeSecond * 5)) ∧
    RefModel.refCacheGet (RefModel.GetSignedInUserWithCacheCtxRef resolve cache query).2
      (newSignedInUserCacheKey result.orgID query.userID) =
      some (RefModel.structCopy result) ∧
    (RefModel.structCopy result).userID = result.userID ∧
    (RefModel.structCopy result).orgID = result.orgID ∧
    (RefModel.structCopy result).identity = result.identity ∧
    (RefModel.structCopy result).teamsRef = result.teamsRef ∧
    (RefModel.structCopy result).permissionsRef = result.permissionsRef ∧
    (∀ h : RefModel.Heap, ∀ i : Nat, ∀ v : Int,
      RefModel.readTeams (RefModel.writeTeamsAt h result.teamsRef i v)
          (RefModel.structCopy result).teamsRef =
        RefModel.readTeams (RefModel.writeTeamsAt h result.teamsRef i v) result.teamsRef) := by
  have hrun : RefModel.GetSignedInUserWithCacheCtxRef resolve cache query =
      (Except.ok result,
        RefModel.refCacheSet cache (newSignedInUserCacheKey result.orgID query.userID)
          (RefModel.structCopy result) (timeSecond * 5)) := by
    simp only [RefModel.GetSignedInUserWithCacheCtxRef, hmiss, hres]
  refine ⟨hrun, ?_, rfl, rfl, rfl, rfl, rfl, fun h i v => rfl⟩
  rw [hrun]
  simp [RefModel.refCacheGet, RefModel.refCacheSet]

/-- Witness for the amended C7 at the concrete scenario. -/
theorem GetSignedInUserWithCacheCtxRef_shallow_snapshot_witness :
    RefModel.GetSignedInUserWithCacheCtxRef (fun _ => Except.ok c7Result) [] c7Query =
      (Except.ok c7Result,
        RefModel.refCacheSet [] (newSignedInUserCacheKey c7Result.orgID c7Query.userID)
          (RefModel.structCopy c7Result) (timeSecond * 5)) ∧
    RefModel.refCacheGet
      (RefModel.GetSignedInUserWithCacheCtxRef (fun _ => Except.ok c7Result) [] c7Query).2
      (newSignedInUserCacheKey c7Result.orgID c7Query.userID) =
      some (RefModel.structCopy c7Result) ∧
    (RefModel.structCopy c7Result).userID = c7Result.userID ∧
    (RefModel.structCopy c7Result).orgID = c7Result.orgID ∧
    (RefModel.structCopy c7Result).identity = c7Result.identity ∧
    (RefModel.structCopy c7Result).teamsRef = c7Result.teamsRef ∧
    (RefModel.structCopy c7Result).permissionsRef = c7Result.permissionsRef ∧
    (∀ h : RefModel.Heap, ∀ i : Nat, ∀ v : Int,
      RefModel.readTeams (RefModel.writeTeamsAt h c7Result.teamsRef i v)
          (RefModel.structCopy c7Result).teamsRef =
        RefModel.readTeams (RefModel.writeTeamsAt h c7Result.teamsRef i v) c7Result.teamsRef) :=
  GetSignedInUserWithCacheCtxRef_shallow_snapshot (fun _ => Except.ok c7Result) [] c7Query
    c7Result (by decide) rfl

/-- C8: on a successful store fetch the query passed to the team lookup
carries the internal `tempUser`, whose permissions map has exactly one
entry, keyed by the resolved org ID and mapping the teams-read action to
the single all-teams scope; the value returned to the caller keeps the
store result's permissions, so the temporary context is not part of it. -/
theorem GetSignedInUser_tempUser_scoped_context (env : Env) (query : GetSignedInUserQuery)
    (su : SignedInUser)
    (hstore : env.storeGetSignedInUser query = Except.ok su) :
    Event.teamGetTeamsByUser (getTeamsByUserQuery su) ∈ (GetSignedInUser env query).2 ∧
    (getTeamsByUserQuery su).signedInUser = tempUser su ∧
    (tempUser su).permissions = [(su.orgID, [(actionTeamsRead, [scopeTeamsAll])])] ∧
    (tempUser su).permissions.length = 1 ∧
    (∀ ts, env.teamGetTeamsByUser (getTeamsByUserQuery su) = Except.ok ts →
      (GetSignedInUser env query).1 = Except.ok { su with teams := ts.map Team.id } ∧
      ({ su with teams := ts.map Team.id }).permissions = su.permissions) := by
  refine ⟨?_, rfl, rfl, rfl, fun ts hteam => ⟨?_, rfl⟩⟩
  · cases hteam : env.teamGetTeamsByUser (getTeamsByUserQuery su) with
    | error e => simp [GetSignedInUser, hstore, hteam]
    | ok ts => simp [GetSignedInUser, hstore, hteam]
  · simp only [GetSignedInUser, hstore, hteam]

/-- Witness for C8 at the concrete environment. -/
theorem GetSignedInUser_tempUser_scoped_context_witness :
    Event.teamGetTeamsByUser (getTeamsByUserQuery wUser) ∈ (GetSignedInUser wEnv wQuery).2 ∧
    (getTeamsByUserQuery wUser).signedInUser = tempUser wUser ∧
    (tempUser wUser).permissions = [(wUser.orgID, [(actionTeamsRead, [scopeTeamsAll])])] ∧
    (tempUser wUser).permissions.length = 1 ∧
    (∀ ts, wEnv.teamGetTeamsByUser (getTeamsByUserQuery wUser) = Except.ok ts →
      (GetSignedInUser wEnv wQuery).1 = Except.ok { wUser with teams := ts.map Team.id } ∧
      ({ wUser with teams := ts.map Team.id }).permissions = wUser.permissions) :=
  GetSignedInUser_tempUser_scoped_context wEnv wQuery wUser rfl

/-- C9: the cache key is a pure deterministic function of the pair, and
two pairs yield the same key exactly when they are equal, so entries for
different users or orgs never collide. -/
theorem newSignedInUserCacheKey_deterministic_injective :
    ∀ orgID userID orgID2 userID2 : Int,
      newSignedInUserCacheKey orgID userID = newSignedInUserCacheKey orgID2 userID2 ↔
        (orgID = orgID2 ∧ userID = userID2) := by
  intro o u o2 u2
  constructor
  · intro h
    have hdata := congrArg String.data h
    rw [newSignedInUserCacheKey_data, newSignedInUserCacheKey_data] at hdata
    have h2 := List.append_cancel_left hdata
    have h3 := intRepr_cons_minus_inj u u2 _ _ h2
    exact ⟨intRepr_injective o o2 (String.ext h3.2), h3.1⟩
  · rintro ⟨rfl, rfl⟩
    rfl

/-- Witness for C9 at a concrete pair. -/
theorem newSignedInUserCacheKey_deterministic_injective_witness :
    newSignedInUserCacheKey 2 3 = newSignedInUserCacheKey 2 3 ↔
      ((2 : Int) = 2 ∧ (3 : Int) = 3) :=
  newSignedInUserCacheKey_deterministic_injective 2 3 2 3

/-- C10: on success `GetSignedInUser` returns the store's projection with
only the `Teams` field reassigned; user ID, org ID, identity and
permissions are returned unchanged. -/
theorem GetSignedInUser_frame_only_teams_reassigned (env : Env)
    (query : GetSignedInUserQuery) (su : SignedInUser) (ts : List Team)
    (hstore : env.storeGetSignedInUser query = Except.ok su)
    (hteams : env.teamGetTeamsByUser (getTeamsByUserQuery su) = Except.ok ts) :
    (GetSignedInUser env query).1 = Except.ok { su with teams := ts.map Team.id } ∧
    ∀ r, (GetSignedInUser env query).1 = Except.ok r →
      r.userID = su.userID ∧ r.orgID = su.orgID ∧ r.identity = su.identity ∧
      r.permissions = su.permissions ∧ r.teams = ts.map Team.id := by
  have hrun : (GetSignedInUser env query).1 = Except.ok { su with teams := ts.map Team.id } := by
    simp only [GetSignedInUser, hstore, hteams]
  refine ⟨hrun, fun r hr => ?_⟩
  rw [hrun] at hr
  cases hr
  exact ⟨rfl, rfl, rfl, rfl, rfl⟩

/-- Witness for C10 at the concrete environment. -/
theorem GetSignedInUser_frame_only_teams_reassigned_witness :
    (GetSignedInUser wEnv wQuery).1 = Except.ok { wUser with teams := wTeams.map Team.id } ∧
    (∀ r, (GetSignedInUser wEnv wQuery).1 = Except.ok r →
      r.userID = wUser.userID ∧ r.orgID = wUser.orgID ∧ r.identity = wUser.identity ∧
      r.permissions = wUser.permissions ∧ r.teams = wTeams.map Team.id) :=
  GetSignedInUser_frame_only_teams_reassigned wEnv wQuery wUser wTeams rfl rfl

end UserImpl
